import Mathlib

/-
Verification of the calculation-ledger backend: a shallow embedding of the
calculation engine, the calculation ledger endpoints, and the user-directory
operations, with theorems settling the specified properties.

Numeric operands are modelled as rationals.  Database tables are modelled as
lists in insertion order (records are appended on insert, and queries iterate
the table in that order, as the backing store does); timestamps are a logical
clock carried by the store.
-/

namespace Spec2Proof

/-- Errors of the calculation engine. -/
inductive EvalError where
  | divisionByZero
  | invalidArity
  | unknownKind
deriving DecidableEq, Repr

/-- The fixed enumeration of operation kinds. -/
inductive CalcKind where
  | add
  | subtract
  | multiply
  | divide
deriving DecidableEq, Repr

/-- Modelled from the spec: the kind enumeration of app/models/calculation.py
(not under src/).  Kinds are add, subtract, multiply, divide, with aliases
such as addition, subtraction, multiplication, division mapping to the same
kinds; any other string is unknown. -/
def parseKind : String → Option CalcKind
  | "add" => some CalcKind.add
  | "addition" => some CalcKind.add
  | "subtract" => some CalcKind.subtract
  | "subtraction" => some CalcKind.subtract
  | "multiply" => some CalcKind.multiply
  | "multiplication" => some CalcKind.multiply
  | "divide" => some CalcKind.divide
  | "division" => some CalcKind.divide
  | _ => none

/-- Left-to-right successive division, failing the moment a zero divisor is
reached. -/
def divideFold (acc : ℚ) : List ℚ → Except EvalError ℚ
  | [] => Except.ok acc
  | d :: ds => if d = 0 then Except.error EvalError.divisionByZero else divideFold (acc / d) ds

/-- Modelled from the spec: the pure calculation engine realised by
Calculation.create together with Calculation.get_result in
app/models/calculation.py (not under src/).  Requires at least two numeric
inputs; add, subtract and multiply reduce left-to-right over the full input
list; divide divides successively left-to-right and fails with
DivisionByZero the moment any divisor is zero; an unknown kind fails with
UnknownKind and fewer than two inputs fails with InvalidArity. -/
def evaluate (kind : String) (inputs : List ℚ) : Except EvalError ℚ :=
  match parseKind kind with
  | none => Except.error EvalError.unknownKind
  | some k =>
    match inputs with
    | [] => Except.error EvalError.invalidArity
    | [_] => Except.error EvalError.invalidArity
    | x :: xs =>
      match k with
      | CalcKind.add => Except.ok (xs.foldl (· + ·) x)
      | CalcKind.subtract => Except.ok (xs.foldl (· - ·) x)
      | CalcKind.multiply => Except.ok (xs.foldl (· * ·) x)
      | CalcKind.divide => divideFold x xs

/-- An HTTP-level error response: status code and detail message. -/
structure HttpError where
  status : Nat
  detail : String
deriving DecidableEq, Repr

/-- A stored calculation record: a row of the calculations table. -/
structure CalcRec where
  id : Nat
  user_id : Nat
  kind : String
  inputs : List ℚ
  result : ℚ
  created_at : Nat
  updated_at : Nat
deriving DecidableEq, Repr

/-- The calculations table in insertion order, an id allocator and a logical
clock standing for the wall clock read by the handlers. -/
structure Store where
  calcs : List CalcRec
  nextId : Nat
  now : Nat
deriving DecidableEq, Repr

/-- The 400 responses which the handlers in app/main.py derive from engine
failures (detail is the stringified engine error). -/
def engineHttpError : EvalError → HttpError
  | EvalError.divisionByZero => ⟨400, "Cannot divide by zero"⟩
  | EvalError.invalidArity => ⟨400, "At least two numeric inputs are required"⟩
  | EvalError.unknownKind => ⟨400, "Unsupported calculation type"⟩

/-- The single 404 response of the calculation read, update and delete
handlers in app/main.py, shared by the absent-id and foreign-owner cases. -/
def calcNotFoundErr : HttpError := ⟨404, "Calculation not found."⟩

/-- The predicate of the ownership-scoped query used by the read, update and
delete handlers in app/main.py: the row must match both the requested id and
the current user. -/
def ownedBy (calcId userId : Nat) (c : CalcRec) : Bool :=
  c.id == calcId && c.user_id == userId

/-- Replace the first element satisfying the predicate, as mutating the row
returned by a first-match query does. -/
def replaceFirst {α : Type} (p : α → Bool) (a2 : α) : List α → List α
  | [] => []
  | x :: xs => if p x then a2 :: xs else x :: replaceFirst p a2 xs

/-- Remove the first element satisfying the predicate, as deleting the row
returned by a first-match query does. -/
def removeFirst {α : Type} (p : α → Bool) : List α → List α
  | [] => []
  | x :: xs => if p x then xs else x :: removeFirst p xs

/-- POST /calculations (app/main.py create_calculation): evaluate the
requested calculation, then persist the record together with its derived
result; on an engine failure roll back and answer 400, leaving the store
unchanged. -/
def create_calculation (st : Store) (userId : Nat) (kind : String) (inputs : List ℚ) :
    Store × Except HttpError CalcRec :=
  match evaluate kind inputs with
  | Except.error e => (st, Except.error (engineHttpError e))
  | Except.ok r =>
    let c : CalcRec := ⟨st.nextId, userId, kind, inputs, r, st.now, st.now⟩
    (⟨st.calcs ++ [c], st.nextId + 1, st.now + 1⟩, Except.ok c)

/-- GET /calculations (app/main.py list_calculations): the rows whose
user_id is the current user, in table order. -/
def list_calculations (st : Store) (userId : Nat) : List CalcRec :=
  st.calcs.filter (fun c => c.user_id == userId)

/-- GET /calculations/calc_id (app/main.py get_calculation): the first row
matching both id and owner, else the shared 404. -/
def get_calculation (st : Store) (userId calcId : Nat) : Except HttpError CalcRec :=
  match st.calcs.find? (ownedBy calcId userId) with
  | none => Except.error calcNotFoundErr
  | some c => Except.ok c

/-- PUT /calculations/calc_id (app/main.py update_calculation): look up the
row scoped to the owner; when inputs are supplied replace them and recompute
the result through the engine; in every successful case refresh updated_at
and commit. -/
def update_calculation (st : Store) (userId calcId : Nat) (newInputs : Option (List ℚ)) :
    Store × Except HttpError CalcRec :=
  match st.calcs.find? (ownedBy calcId userId) with
  | none => (st, Except.error calcNotFoundErr)
  | some c =>
    match newInputs with
    | none =>
      let c2 : CalcRec := { c with updated_at := st.now }
      (⟨replaceFirst (ownedBy calcId userId) c2 st.calcs, st.nextId, st.now + 1⟩, Except.ok c2)
    | some ins =>
      match evaluate c.kind ins with
      | Except.error e => (st, Except.error (engineHttpError e))
      | Except.ok r =>
        let c2 : CalcRec := { c with inputs := ins, result := r, updated_at := st.now }
        (⟨replaceFirst (ownedBy calcId userId) c2 st.calcs, st.nextId, st.now + 1⟩, Except.ok c2)

/-- DELETE /calculations/calc_id (app/main.py delete_calculation): delete
the first row matching id and owner, else the shared 404. -/
def delete_calculation (st : Store) (userId calcId : Nat) : Store × Except HttpError Unit :=
  match st.calcs.find? (ownedBy calcId userId) with
  | none => (st, Except.error calcNotFoundErr)
  | some _ =>
    (⟨removeFirst (ownedBy calcId userId) st.calcs, st.nextId, st.now + 1⟩, Except.ok ())

/-- A stored user record: a row of the users table. -/
structure UserRec where
  id : Nat
  first_name : String
  last_name : String
  email : String
  username : String
  password : String
  is_active : Bool
  is_verified : Bool
  last_login : Option Nat
  created_at : Nat
  updated_at : Nat
deriving DecidableEq, Repr

/-- The users table in insertion order, an id allocator and a logical
clock. -/
structure UStore where
  users : List UserRec
  nextId : Nat
  now : Nat
deriving DecidableEq, Repr

/-- The registration payload (app/schemas UserCreate). -/
structure UserCreate where
  first_name : String
  last_name : String
  email : String
  username : String
  password : String
  confirm_password : String
deriving DecidableEq, Repr

/-- The partial profile-update payload (app/schemas UserUpdate): only
supplied fields change. -/
structure UserUpdate where
  first_name : Option String
  last_name : Option String
  email : Option String
  username : Option String
deriving DecidableEq, Repr

/-- Modelled from the spec: case-insensitive string comparison, the
collation under which username and email uniqueness is checked (the column
definitions live in app/models/user.py, which is not under src/). -/
def ciEq (a b : String) : Bool := a.data.map Char.toLower == b.data.map Char.toLower

/-- Modelled from the spec: the one-way salted password hash of section 4.1
(app/models/user.py is not under src/); an abstract injective encoding
stands for the hash. -/
def hash_password (p : String) : String := "hashed:" ++ p

/-- Modelled from the spec: verification of a plain password against a
stored hash. -/
def verify_password (p h : String) : Bool := hash_password p == h

/-- Modelled from the spec: the password strength policy of section 4.2 --
minimum length eight with upper case, lower case, digit and special
character. -/
def strongPassword (p : String) : Bool :=
  decide (8 ≤ p.data.length) && p.data.any Char.isUpper && p.data.any Char.isLower &&
    p.data.any Char.isDigit && p.data.any (fun c => !c.isAlphanum)

/-- Modelled from the spec: User.register (app/models/user.py, not under
src/), called by UserOperations.register_user: password policy and
confirmation are checked before hashing, then the username and email are
checked case-insensitively against every existing user, and on success the
new user is appended with a hashed password. -/
def register_user (st : UStore) (d : UserCreate) : UStore × Except HttpError UserRec :=
  if ¬ strongPassword d.password then
    (st, Except.error ⟨422, "Password does not meet the strength policy"⟩)
  else if d.password ≠ d.confirm_password then
    (st, Except.error ⟨422, "Passwords do not match"⟩)
  else if st.users.any (fun u => ciEq u.email d.email || ciEq u.username d.username) then
    (st, Except.error ⟨400, "Username or email already exists"⟩)
  else
    let u : UserRec := ⟨st.nextId, d.first_name, d.last_name, d.email, d.username,
      hash_password d.password, true, false, none, st.now, st.now⟩
    (⟨st.users ++ [u], st.nextId + 1, st.now + 1⟩, Except.ok u)

/-- Modelled from the spec: User.authenticate (app/models/user.py, not
under src/): look the identifier up as username or email and verify the
password, returning nothing on either failure. -/
def authenticate (st : UStore) (ident pwd : String) : Option UserRec :=
  match st.users.find? (fun u => u.username == ident || u.email == ident) with
  | none => none
  | some u => if verify_password pwd u.password then some u else none

/-- POST /users/login (app/main.py login_user over
UserOperations.authenticate_user): a single 401 response for every
authentication failure; on success last_login is set and the user
returned. -/
def login_user (st : UStore) (ident pwd : String) : UStore × Except HttpError UserRec :=
  match authenticate st ident pwd with
  | none => (st, Except.error ⟨401, "Invalid username or password"⟩)
  | some u =>
    let u2 : UserRec := { u with last_login := some st.now }
    (⟨replaceFirst (fun v => v.id == u.id) u2 st.users, st.nextId, st.now + 1⟩, Except.ok u2)

/-- UserOperations.update_user (app/operations/users.py 115-156): look the
user up by id, re-check a supplied username and email against all other
users (case-insensitively, per the collation of the model), then merge only
the supplied fields.  Failures map to 400 in app/main.py. -/
def update_user (st : UStore) (userId : Nat) (upd : UserUpdate) :
    UStore × Except HttpError UserRec :=
  match st.users.find? (fun u => u.id == userId) with
  | none => (st, Except.error ⟨400, "User not found"⟩)
  | some user =>
    if st.users.any (fun v => match upd.username with
        | some un => ciEq v.username un && v.id != userId
        | none => false) then
      (st, Except.error ⟨400, "Username already exists"⟩)
    else if st.users.any (fun v => match upd.email with
        | some e => ciEq v.email e && v.id != userId
        | none => false) then
      (st, Except.error ⟨400, "Email already exists"⟩)
    else
      let u2 : UserRec := { user with
        first_name := upd.first_name.getD user.first_name,
        last_name := upd.last_name.getD user.last_name,
        email := upd.email.getD user.email,
        username := upd.username.getD user.username }
      (⟨replaceFirst (fun u => u.id == userId) u2 st.users, st.nextId, st.now + 1⟩, Except.ok u2)

/-- UserOperations.change_password (app/operations/users.py 159-185): the
current password must verify before the hash is replaced. -/
def change_password (st : UStore) (userId : Nat) (currentPwd newPwd : String) :
    UStore × Except HttpError UserRec :=
  match st.users.find? (fun u => u.id == userId) with
  | none => (st, Except.error ⟨400, "User not found"⟩)
  | some user =>
    if verify_password currentPwd user.password then
      let u2 : UserRec := { user with password := hash_password newPwd }
      (⟨replaceFirst (fun u => u.id == userId) u2 st.users, st.nextId, st.now + 1⟩, Except.ok u2)
    else (st, Except.error ⟨400, "Current password is incorrect"⟩)

/-- UserOperations.deactivate_user (app/operations/users.py 188-206). -/
def deactivate_user (st : UStore) (userId : Nat) : UStore × Except HttpError UserRec :=
  match st.users.find? (fun u => u.id == userId) with
  | none => (st, Except.error ⟨404, "User not found"⟩)
  | some user =>
    let u2 : UserRec := { user with is_active := false }
    (⟨replaceFirst (fun u => u.id == userId) u2 st.users, st.nextId, st.now + 1⟩, Except.ok u2)

/-- UserOperations.delete_user (app/operations/users.py 230-243). -/
def delete_user (st : UStore) (userId : Nat) : UStore × Except HttpError Unit :=
  match st.users.find? (fun u => u.id == userId) with
  | none => (st, Except.error ⟨404, "User not found"⟩)
  | some _ =>
    (⟨removeFirst (fun u => u.id == userId) st.users, st.nextId, st.now + 1⟩, Except.ok ())

/-- PUT /users/user_id (app/main.py update_user_profile 167-194): a caller
whose id differs from the target id is answered 403 before anything else
happens. -/
def update_user_profile (st : UStore) (currentUserId targetId : Nat) (upd : UserUpdate) :
    UStore × Except HttpError UserRec :=
  if currentUserId ≠ targetId then
    (st, Except.error ⟨403, "You can only update your own profile"⟩)
  else update_user st targetId upd

/-- POST /users/user_id/change-password (app/main.py change_user_password
204-230). -/
def change_user_password (st : UStore) (currentUserId targetId : Nat)
    (currentPwd newPwd : String) : UStore × Except HttpError UserRec :=
  if currentUserId ≠ targetId then
    (st, Except.error ⟨403, "You can only change your own password"⟩)
  else change_password st targetId currentPwd newPwd

/-- POST /users/user_id/deactivate (app/main.py deactivate_user_account
240-261). -/
def deactivate_user_account (st : UStore) (currentUserId targetId : Nat) :
    UStore × Except HttpError UserRec :=
  if currentUserId ≠ targetId then
    (st, Except.error ⟨403, "You can only deactivate your own account"⟩)
  else deactivate_user st targetId

/-- DELETE /users/user_id (app/main.py delete_user_account 271-292). -/
def delete_user_account (st : UStore) (currentUserId targetId : Nat) :
    UStore × Except HttpError Unit :=
  if currentUserId ≠ targetId then
    (st, Except.error ⟨403, "You can only delete your own account"⟩)
  else delete_user st targetId

/-- Two users collide on neither email nor username, under the
case-insensitive collation. -/
def usersDistinct (u v : UserRec) : Prop :=
  ciEq u.email v.email = false ∧ ciEq u.username v.username = false

/-- The uniqueness invariant of the users table: email and username are
each globally unique, compared case-insensitively. -/
def uniqueUsers (l : List UserRec) : Prop := l.Pairwise usersDistinct

/-- Ids of the users table are pairwise distinct (they come from the id
allocator). -/
def distinctIds (l : List UserRec) : Prop := l.Pairwise (fun u v => u.id ≠ v.id)

lemma foldl_add_eq_sum (xs : List ℚ) : ∀ a : ℚ, xs.foldl (· + ·) a = a + xs.sum := by
  induction xs with
  | nil => intro a; simp
  | cons x xs ih => intro a; simp [List.foldl_cons, ih, List.sum_cons]; ring

lemma foldl_sub_eq_sub_sum (xs : List ℚ) : ∀ a : ℚ, xs.foldl (· - ·) a = a - xs.sum := by
  induction xs with
  | nil => intro a; simp
  | cons x xs ih => intro a; simp [List.foldl_cons, ih, List.sum_cons]; ring

lemma foldl_mul_eq_mul_prod (xs : List ℚ) : ∀ a : ℚ, xs.foldl (· * ·) a = a * xs.prod := by
  induction xs with
  | nil => intro a; simp
  | cons x xs ih => intro a; simp [List.foldl_cons, ih, List.prod_cons]; ring

lemma divideFold_ok (xs : List ℚ) (hx : (0 : ℚ) ∉ xs) :
    ∀ a : ℚ, divideFold a xs = Except.ok (a / xs.prod) := by
  induction xs with
  | nil => intro a; simp [divideFold]
  | cons d ds ih =>
      intro a
      have hd : d ≠ 0 := fun h => hx (by simp [h])
      have hds : (0 : ℚ) ∉ ds := fun h => hx (List.mem_cons_of_mem _ h)
      simp [divideFold, hd, ih hds, List.prod_cons, div_div]

/-- C1: for every operand list of at least two inputs, the engine reduces
left-to-right over the full list: add yields the sum, subtract yields
successive subtraction (the head minus the sum of the rest), multiply yields
the product, and divide yields successive division (the head divided by the
product of the rest when no divisor is zero); in particular on [10, 5],
divide yields 2, add yields 15, multiply yields 50 and subtract yields 5. -/
theorem C1_engine_reduces_left_to_right :
    (∀ (x : ℚ) (xs : List ℚ), xs ≠ [] →
      evaluate "add" (x :: xs) = Except.ok (x :: xs).sum ∧
      evaluate "multiply" (x :: xs) = Except.ok (x :: xs).prod ∧
      evaluate "subtract" (x :: xs) = Except.ok (x - xs.sum) ∧
      ((0 : ℚ) ∉ xs → evaluate "divide" (x :: xs) = Except.ok (x / xs.prod))) ∧
    evaluate "divide" [10, 5] = Except.ok 2 ∧
    evaluate "add" [10, 5] = Except.ok 15 ∧
    evaluate "multiply" [10, 5] = Except.ok 50 ∧
    evaluate "subtract" [10, 5] = Except.ok 5 := by
  constructor
  · intro x xs hxs
    obtain ⟨y, ys, rfl⟩ := List.exists_cons_of_ne_nil hxs
    refine ⟨?_, ?_, ?_, ?_⟩
    · simp [evaluate, parseKind, foldl_add_eq_sum, List.sum_cons]
      ring
    · simp [evaluate, parseKind, foldl_mul_eq_mul_prod, List.prod_cons]
      ring
    · simp [evaluate, parseKind, foldl_sub_eq_sub_sum, List.sum_cons]
      ring
    · intro h0
      simp [evaluate, parseKind, divideFold_ok _ h0]
  · refine ⟨?_, ?_, ?_, ?_⟩ <;> norm_num [evaluate, parseKind, divideFold]

/-- Witness for C1 at the concrete list [10, 5]. -/
theorem C1_witness :
    evaluate "add" ((10 : ℚ) :: [5]) = Except.ok ((10 : ℚ) :: [5]).sum :=
  ((C1_engine_reduces_left_to_right.1 10 [5] (by decide)).1)

lemma divideFold_zero (xs : List ℚ) (hx : (0 : ℚ) ∈ xs) :
    ∀ a : ℚ, divideFold a xs = Except.error EvalError.divisionByZero := by
  induction xs with
  | nil => cases hx
  | cons d ds ih =>
      intro a
      by_cases hd : d = 0
      · simp [divideFold, hd]
      · have hds : (0 : ℚ) ∈ ds := by
          rcases List.mem_cons.mp hx with h | h
          · exact absurd h.symm hd
          · exact h
        simp [divideFold, hd, ih hds]

/-- C2: any zero in a divisor position makes divide fail with
DivisionByZero, and a create request with such inputs is answered 400 with
the store unchanged, so nothing is persisted. -/
theorem C2_divide_by_zero_rejected :
    ∀ (x : ℚ) (xs : List ℚ), (0 : ℚ) ∈ xs →
      evaluate "divide" (x :: xs) = Except.error EvalError.divisionByZero ∧
      ∀ (st : Store) (u : Nat),
        create_calculation st u "divide" (x :: xs) =
          (st, Except.error (engineHttpError EvalError.divisionByZero)) := by
  intro x xs hx
  obtain ⟨y, ys, rfl⟩ := List.exists_cons_of_ne_nil (List.ne_nil_of_mem hx)
  have heval : evaluate "divide" (x :: y :: ys) = Except.error EvalError.divisionByZero := by
    simp [evaluate, parseKind, divideFold_zero _ hx]
  exact ⟨heval, fun st u => by simp [create_calculation, heval]⟩

/-- Witness for C2 at the concrete inputs [1, 0]. -/
theorem C2_witness :
    evaluate "divide" ((1 : ℚ) :: [0]) = Except.error EvalError.divisionByZero :=
  (C2_divide_by_zero_rejected 1 [0] (by simp)).1

/-- C3: for every kind of the enumeration, fewer than two inputs fails with
InvalidArity; any kind outside the enumeration fails with UnknownKind; and a
successful evaluation implies the kind was known and at least two inputs
were given, so neither failure produces a numeric result. -/
theorem C3_arity_and_unknown_kind :
    (∀ (kind : String) (k : CalcKind), parseKind kind = some k →
      ∀ inputs : List ℚ, inputs.length < 2 →
        evaluate kind inputs = Except.error EvalError.invalidArity) ∧
    (∀ kind : String, parseKind kind = none →
      ∀ inputs : List ℚ, evaluate kind inputs = Except.error EvalError.unknownKind) ∧
    (∀ (kind : String) (inputs : List ℚ) (r : ℚ),
      evaluate kind inputs = Except.ok r →
        2 ≤ inputs.length ∧ ∃ k, parseKind kind = some k) := by
  refine ⟨?_, ?_, ?_⟩
  · intro kind k hk inputs hlen
    match inputs with
    | [] => simp [evaluate, hk]
    | [x] => simp [evaluate, hk]
    | x :: y :: zs => exact absurd hlen (by simp)
  · intro kind hk inputs
    simp [evaluate, hk]
  · intro kind inputs r h
    cases hp : parseKind kind with
    | none => simp [evaluate, hp] at h
    | some k =>
        refine ⟨?_, k, rfl⟩
        match inputs with
        | [] => simp [evaluate, hp] at h
        | [x] => simp [evaluate, hp] at h
        | x :: y :: zs => simp

/-- Witness for C3: a single input under the known kind add. -/
theorem C3_witness :
    evaluate "add" [(3 : ℚ)] = Except.error EvalError.invalidArity :=
  C3_arity_and_unknown_kind.1 "add" CalcKind.add rfl [3] (by simp)

lemma replaceFirst_mem {α : Type} (p : α → Bool) (a2 : α) (l : List α) (c : α)
    (h : l.find? p = some c) : a2 ∈ replaceFirst p a2 l := by
  induction l with
  | nil => simp [List.find?] at h
  | cons x xs ih =>
      by_cases hx : p x
      · simp [replaceFirst, hx]
      · rw [List.find?_cons_of_neg _ hx] at h
        simp [replaceFirst, hx, ih h]

/-- C4: a calculation created with kind K and inputs I stores result
evaluate(K, I); an update replacing the inputs with I' stores result
evaluate(K, I') in a record whose created_at is the original one and whose
updated_at is the time of the update. -/
theorem C4_round_trip :
    (∀ (st : Store) (u : Nat) (kind : String) (inputs : List ℚ) (r : ℚ),
      evaluate kind inputs = Except.ok r →
        (create_calculation st u kind inputs).2 =
          Except.ok ⟨st.nextId, u, kind, inputs, r, st.now, st.now⟩ ∧
        (⟨st.nextId, u, kind, inputs, r, st.now, st.now⟩ : CalcRec) ∈
          (create_calculation st u kind inputs).1.calcs) ∧
    (∀ (st : Store) (u cid : Nat) (ins : List ℚ) (c : CalcRec) (r : ℚ),
      st.calcs.find? (ownedBy cid u) = some c →
      evaluate c.kind ins = Except.ok r →
        (update_calculation st u cid (some ins)).2 =
          Except.ok { c with inputs := ins, result := r, updated_at := st.now } ∧
        ({ c with inputs := ins, result := r, updated_at := st.now } : CalcRec) ∈
          (update_calculation st u cid (some ins)).1.calcs ∧
        ({ c with inputs := ins, result := r, updated_at := st.now } : CalcRec).created_at =
          c.created_at ∧
        ({ c with inputs := ins, result := r, updated_at := st.now } : CalcRec).updated_at =
          st.now) := by
  constructor
  · intro st u kind inputs r heval
    refine ⟨by simp [create_calculation, heval], by simp [create_calculation, heval]⟩
  · intro st u cid ins c r hfind heval
    refine ⟨by simp [update_calculation, hfind, heval], ?_, rfl, rfl⟩
    simpa [update_calculation, hfind, heval] using
      replaceFirst_mem (ownedBy cid u) _ st.calcs c hfind

/-- Witness for C4: creating an add calculation over [10, 5] in an empty
store yields a stored result of 15. -/
theorem C4_witness :
    (create_calculation ⟨[], 0, 0⟩ 7 "add" [10, 5]).2 =
      Except.ok ⟨0, 7, "add", [10, 5], 15, 0, 0⟩ :=
  (C4_round_trip.1 ⟨[], 0, 0⟩ 7 "add" [10, 5] 15 (by norm_num [evaluate, parseKind])).1

/-- C5: get, update and delete answer the same 404 error both when no
calculation carries the id and when every calculation carrying the id is
owned by a different user, leaving the store unchanged; and a listing for a
user contains only calculations of that user. -/
theorem C5_not_found_uniform :
    ∀ (st : Store) (u cid : Nat),
      ((∀ c ∈ st.calcs, c.id ≠ cid) ∨ (∀ c ∈ st.calcs, c.id = cid → c.user_id ≠ u)) →
        get_calculation st u cid = Except.error calcNotFoundErr ∧
        (∀ newInputs, update_calculation st u cid newInputs = (st, Except.error calcNotFoundErr)) ∧
        delete_calculation st u cid = (st, Except.error calcNotFoundErr) ∧
        calcNotFoundErr.status = 404 ∧
        ∀ c ∈ list_calculations st u, c.user_id = u := by
  intro st u cid hcase
  have hfind : st.calcs.find? (ownedBy cid u) = none := by
    rw [List.find?_eq_none]
    intro c hc
    rcases hcase with h | h
    · simp [ownedBy, h c hc]
    · by_cases hid : c.id = cid
      · simp [ownedBy, h c hc hid]
      · simp [ownedBy, hid]
  refine ⟨by simp [get_calculation, hfind], fun newInputs => by simp [update_calculation, hfind],
    by simp [delete_calculation, hfind], rfl, ?_⟩
  intro c hc
  have := (List.mem_filter.mp hc).2
  simpa using this

/-- Witness for C5: a request against the empty store. -/
theorem C5_witness :
    get_calculation ⟨[], 0, 0⟩ 1 5 = Except.error calcNotFoundErr :=
  (C5_not_found_uniform ⟨[], 0, 0⟩ 1 5 (Or.inl (by simp))).1

/-- C9: the listing of a user is a subsequence of the table in insertion order,
and each successful creation appends the new record at the end of that
listing of that user, so earlier creations precede later ones. -/
theorem C9_list_insertion_order :
    ∀ (st : Store) (u : Nat),
      (list_calculations st u).Sublist st.calcs ∧
      ∀ (kind : String) (inputs : List ℚ) (st2 : Store) (c : CalcRec),
        create_calculation st u kind inputs = (st2, Except.ok c) →
          list_calculations st2 u = list_calculations st u ++ [c] := by
  intro st u
  refine ⟨List.filter_sublist _, ?_⟩
  intro kind inputs st2 c h
  cases heval : evaluate kind inputs with
  | error e => simp [create_calculation, heval] at h
  | ok r =>
      simp only [create_calculation, heval, Prod.mk.injEq, Except.ok.injEq] at h
      obtain ⟨hst2, hc⟩ := h
      subst hst2
      subst hc
      simp [list_calculations, List.filter_append]

/-- Witness for C9: creating an add calculation for user 7 in the empty
store appends it to the listing of user 7. -/
theorem C9_witness :
    list_calculations ⟨[⟨0, 7, "add", [10, 5], 15, 0, 0⟩], 1, 1⟩ 7 =
      list_calculations ⟨[], 0, 0⟩ 7 ++ [⟨0, 7, "add", [10, 5], 15, 0, 0⟩] :=
  (C9_list_insertion_order ⟨[], 0, 0⟩ 7).2 "add" [10, 5] _ _
    (by norm_num [create_calculation, evaluate, parseKind])

/-- C10: for a calculation owned by the requester, an update supplying no
inputs succeeds, leaves the stored inputs and result (and created_at)
unchanged, and still refreshes updated_at to the time of the update. -/
theorem C10_update_without_inputs :
    ∀ (st : Store) (u cid : Nat) (c : CalcRec),
      st.calcs.find? (ownedBy cid u) = some c →
        (update_calculation st u cid none).2 = Except.ok { c with updated_at := st.now } ∧
        ({ c with updated_at := st.now } : CalcRec) ∈ (update_calculation st u cid none).1.calcs ∧
        ({ c with updated_at := st.now } : CalcRec).inputs = c.inputs ∧
        ({ c with updated_at := st.now } : CalcRec).result = c.result ∧
        ({ c with updated_at := st.now } : CalcRec).created_at = c.created_at ∧
        ({ c with updated_at := st.now } : CalcRec).updated_at = st.now := by
  intro st u cid c hfind
  refine ⟨by simp [update_calculation, hfind], ?_, rfl, rfl, rfl, rfl⟩
  simpa [update_calculation, hfind] using
    replaceFirst_mem (ownedBy cid u) _ st.calcs c hfind

/-- Witness for C10: an inputs-free update of the only record of a
one-record store. -/
theorem C10_witness :
    (update_calculation ⟨[⟨0, 7, "add", [10, 5], 15, 0, 0⟩], 1, 4⟩ 7 0 none).2 =
      Except.ok ⟨0, 7, "add", [10, 5], 15, 0, 4⟩ :=
  (C10_update_without_inputs ⟨[⟨0, 7, "add", [10, 5], 15, 0, 0⟩], 1, 4⟩ 7 0
    ⟨0, 7, "add", [10, 5], 15, 0, 0⟩ (by rfl)).1

/-- C6: every mutating profile endpoint answers 403 and leaves the store
untouched whenever the resolved user id differs from the target id, and
when the two ids are equal it is exactly the underlying directory
operation. -/
theorem C6_self_only_mutation :
    ∀ (st : UStore) (a b : Nat), a ≠ b →
      (∀ upd, update_user_profile st a b upd =
        (st, Except.error ⟨403, "You can only update your own profile"⟩)) ∧
      (∀ cur np, change_user_password st a b cur np =
        (st, Except.error ⟨403, "You can only change your own password"⟩)) ∧
      deactivate_user_account st a b =
        (st, Except.error ⟨403, "You can only deactivate your own account"⟩) ∧
      delete_user_account st a b =
        (st, Except.error ⟨403, "You can only delete your own account"⟩) ∧
      (∀ upd, update_user_profile st a a upd = update_user st a upd) ∧
      (∀ cur np, change_user_password st a a cur np = change_password st a cur np) ∧
      deactivate_user_account st a a = deactivate_user st a ∧
      delete_user_account st a a = delete_user st a := by
  intro st a b hab
  refine ⟨fun upd => ?_, fun cur np => ?_, ?_, ?_,
    fun upd => ?_, fun cur np => ?_, ?_, ?_⟩ <;>
    simp [update_user_profile, change_user_password, deactivate_user_account,
      delete_user_account, hab]

/-- Witness for C6: caller 1 against target 2 on the empty store. -/
theorem C6_witness :
    deactivate_user_account ⟨[], 0, 0⟩ 1 2 =
      (⟨[], 0, 0⟩, Except.error ⟨403, "You can only deactivate your own account"⟩) :=
  (C6_self_only_mutation ⟨[], 0, 0⟩ 1 2 (by decide)).2.2.1

/-- C7: a login whose identifier matches no user and a login whose
identifier matches a user but whose password fails verification are
answered with literally the same 401 error, so the two causes are
indistinguishable to the caller. -/
theorem C7_login_failures_indistinguishable :
    ∀ (st : UStore) (id1 p1 id2 p2 : String) (u : UserRec),
      (∀ v ∈ st.users, v.username ≠ id1 ∧ v.email ≠ id1) →
      st.users.find? (fun v => v.username == id2 || v.email == id2) = some u →
      verify_password p2 u.password = false →
        login_user st id1 p1 = (st, Except.error ⟨401, "Invalid username or password"⟩) ∧
        login_user st id2 p2 = (st, Except.error ⟨401, "Invalid username or password"⟩) ∧
        (login_user st id1 p1).2 = (login_user st id2 p2).2 := by
  intro st id1 p1 id2 p2 u hunknown hfound hwrong
  have hfind1 : st.users.find? (fun v => v.username == id1 || v.email == id1) = none := by
    rw [List.find?_eq_none]
    intro v hv
    simp [(hunknown v hv).1, (hunknown v hv).2]
  have h1 : login_user st id1 p1 = (st, Except.error ⟨401, "Invalid username or password"⟩) := by
    simp [login_user, authenticate, hfind1]
  have h2 : login_user st id2 p2 = (st, Except.error ⟨401, "Invalid username or password"⟩) := by
    simp [login_user, authenticate, hfound, hwrong]
  exact ⟨h1, h2, by rw [h1, h2]⟩

/-- Witness for C7: one stored user; an unknown identifier and a wrong
password against the known identifier fail identically. -/
theorem C7_witness :
    login_user ⟨[⟨0, "A", "B", "alice@example.com", "alice", hash_password "Secure1!",
        true, false, none, 0, 0⟩], 1, 1⟩ "bob" "Secure1!" =
      (⟨[⟨0, "A", "B", "alice@example.com", "alice", hash_password "Secure1!",
        true, false, none, 0, 0⟩], 1, 1⟩,
        Except.error ⟨401, "Invalid username or password"⟩) :=
  (C7_login_failures_indistinguishable
    ⟨[⟨0, "A", "B", "alice@example.com", "alice", hash_password "Secure1!",
        true, false, none, 0, 0⟩], 1, 1⟩
    "bob" "Secure1!" "alice" "WrongPass1!"
    ⟨0, "A", "B", "alice@example.com", "alice", hash_password "Secure1!", true, false, none, 0, 0⟩
    (by decide) (by decide) (by decide)).1

lemma ciEq_symm (a b : String) : ciEq a b = ciEq b a := by
  by_cases h : a.data.map Char.toLower = b.data.map Char.toLower
  · simp [ciEq, h]
  · have h' : ¬ b.data.map Char.toLower = a.data.map Char.toLower := fun hh => h hh.symm
    simp [ciEq, h, h']

lemma usersDistinct_symm : Symmetric usersDistinct := by
  intro u v h
  exact ⟨by rw [ciEq_symm]; exact h.1, by rw [ciEq_symm]; exact h.2⟩

lemma find?_decomp {α : Type} (p : α → Bool) (l : List α) (c : α) (h : l.find? p = some c) :
    ∃ l1 l2, l = l1 ++ c :: l2 ∧ (∀ x ∈ l1, p x = false) ∧ p c = true ∧
      (∀ a2, replaceFirst p a2 l = l1 ++ a2 :: l2) ∧ removeFirst p l = l1 ++ l2 := by
  induction l with
  | nil => simp [List.find?] at h
  | cons x xs ih =>
      by_cases hx : p x
      · rw [List.find?_cons_of_pos _ hx] at h
        obtain rfl := Option.some.inj h
        exact ⟨[], xs, rfl, by simp, hx, fun a2 => by simp [replaceFirst, hx],
          by simp [removeFirst, hx]⟩
      · rw [List.find?_cons_of_neg _ hx] at h
        obtain ⟨l1, l2, hsplit, h1, hc, hrep, hrem⟩ := ih h
        refine ⟨x :: l1, l2, by rw [hsplit]; rfl, ?_, hc, fun a2 => ?_, ?_⟩
        · intro y hy
          rcases List.mem_cons.mp hy with rfl | hy
          · simpa using hx
          · exact h1 y hy
        · simp [replaceFirst, hx, hrep a2]
        · simp [removeFirst, hx, hrem]

lemma pairwise_middle {α : Type} {R : α → α → Prop} (hs : Symmetric R) {l1 l2 : List α} {c : α}
    (h : (l1 ++ c :: l2).Pairwise R) : ∀ x ∈ l1 ++ l2, R c x := by
  rw [List.pairwise_append] at h
  obtain ⟨h1, h2, hcross⟩ := h
  intro x hx
  rcases List.mem_append.mp hx with hx | hx
  · exact hs (hcross x hx c (List.mem_cons_self _ _))
  · exact (List.pairwise_cons.mp h2).1 x hx

lemma pairwise_replace {α : Type} {R : α → α → Prop} (hs : Symmetric R) {l1 l2 : List α}
    {c a2 : α} (h : (l1 ++ c :: l2).Pairwise R) (ha : ∀ x ∈ l1 ++ l2, R a2 x) :
    (l1 ++ a2 :: l2).Pairwise R := by
  rw [List.pairwise_append] at h ⊢
  obtain ⟨h1, h2, hcross⟩ := h
  refine ⟨h1, ?_, ?_⟩
  · rw [List.pairwise_cons]
    exact ⟨fun y hy => ha y (List.mem_append.mpr (Or.inr hy)), (List.pairwise_cons.mp h2).2⟩
  · intro x hx y hy
    rcases List.mem_cons.mp hy with rfl | hy
    · exact hs (ha x (List.mem_append.mpr (Or.inl hx)))
    · exact hcross x hx y (List.mem_cons_of_mem _ hy)

/-- C8: registration is refused when the email or username collides
case-insensitively with an existing user; a profile update re-checks a
supplied username or email against all other users and is refused on a
collision; and both operations preserve the global case-insensitive
uniqueness of email and username. -/
theorem C8_uniqueness_invariant :
    (∀ (st : UStore) (d : UserCreate),
      strongPassword d.password = true → d.password = d.confirm_password →
      (∃ u ∈ st.users, ciEq u.email d.email = true ∨ ciEq u.username d.username = true) →
        register_user st d = (st, Except.error ⟨400, "Username or email already exists"⟩)) ∧
    (∀ (st : UStore) (uid : Nat) (upd : UserUpdate) (user : UserRec) (un : String),
      st.users.find? (fun u => u.id == uid) = some user →
      upd.username = some un →
      (∃ v ∈ st.users, v.id ≠ uid ∧ ciEq v.username un = true) →
        update_user st uid upd = (st, Except.error ⟨400, "Username already exists"⟩)) ∧
    (∀ (st : UStore) (uid : Nat) (upd : UserUpdate) (user : UserRec) (e : String),
      st.users.find? (fun u => u.id == uid) = some user →
      upd.username = none → upd.email = some e →
      (∃ v ∈ st.users, v.id ≠ uid ∧ ciEq v.email e = true) →
        update_user st uid upd = (st, Except.error ⟨400, "Email already exists"⟩)) ∧
    (∀ (st : UStore) (d : UserCreate), uniqueUsers st.users →
        uniqueUsers (register_user st d).1.users) ∧
    (∀ (st : UStore) (uid : Nat) (upd : UserUpdate),
      uniqueUsers st.users → distinctIds st.users →
        uniqueUsers (update_user st uid upd).1.users) := by
  refine ⟨?_, ?_, ?_, ?_, ?_⟩
  · intro st d hsp hconf hex
    obtain ⟨u, hu, hor⟩ := hex
    have hany : st.users.any (fun u => ciEq u.email d.email || ciEq u.username d.username) = true :=
      List.any_eq_true.mpr ⟨u, hu, by rcases hor with h | h <;> simp [h]⟩
    have hconf' : ¬ d.password ≠ d.confirm_password := by simp [hconf]
    simp [register_user, hsp, hconf', hany]
  · intro st uid upd user un hfind hun hex
    obtain ⟨v, hv, hvid, hvci⟩ := hex
    have hany : st.users.any (fun v => match upd.username with
        | some u2 => ciEq v.username u2 && v.id != uid
        | none => false) = true := by
      refine List.any_eq_true.mpr ⟨v, hv, ?_⟩
      simp [hun, hvci, hvid]
    simp [update_user, hfind, hany]
  · intro st uid upd user e hfind hun hem hex
    obtain ⟨v, hv, hvid, hvci⟩ := hex
    have hanyU : st.users.any (fun v => match upd.username with
        | some u2 => ciEq v.username u2 && v.id != uid
        | none => false) = false := by
      simp [hun]
    have hanyE : st.users.any (fun v => match upd.email with
        | some e2 => ciEq v.email e2 && v.id != uid
        | none => false) = true := by
      refine List.any_eq_true.mpr ⟨v, hv, ?_⟩
      simp [hem, hvci, hvid]
    simp [update_user, hfind, hanyU, hanyE]
  · intro st d hU
    unfold register_user
    split
    · exact hU
    · split
      · exact hU
      · split
        next hany => exact hU
        next hany =>
            show uniqueUsers (st.users ++ [⟨st.nextId, d.first_name, d.last_name, d.email,
              d.username, hash_password d.password, true, false, none, st.now, st.now⟩])
            rw [Bool.not_eq_true, List.any_eq_false] at hany
            refine List.pairwise_append.mpr ⟨hU, by simp, ?_⟩
            intro x hx y hy
            obtain rfl := List.mem_singleton.mp hy
            have h := hany x hx
            simp only [Bool.or_eq_true, not_or, Bool.not_eq_true] at h
            exact ⟨h.1, h.2⟩
  · intro st uid upd hU hIds
    cases hfind : st.users.find? (fun u => u.id == uid) with
    | none => simpa [update_user, hfind] using hU
    | some user =>
        simp only [update_user, hfind]
        split
        next hanyU => exact hU
        next hanyU =>
            split
            next hanyE => exact hU
            next hanyE =>
                show uniqueUsers (replaceFirst (fun u => u.id == uid)
                  { user with
                    first_name := upd.first_name.getD user.first_name,
                    last_name := upd.last_name.getD user.last_name,
                    email := upd.email.getD user.email,
                    username := upd.username.getD user.username } st.users)
                obtain ⟨l1, l2, hsplit, hl1, hpc, hrep, _⟩ :=
                  find?_decomp (fun u => u.id == uid) st.users user hfind
                rw [hrep]
                have huserid : user.id = uid := by simpa using hpc
                rw [Bool.not_eq_true, List.any_eq_false] at hanyU hanyE
                rw [hsplit] at hU hIds
                have hsub : ∀ x ∈ l1 ++ l2, x ∈ st.users := by
                  intro x hx
                  rw [hsplit]
                  rcases List.mem_append.mp hx with h | h
                  · exact List.mem_append.mpr (Or.inl h)
                  · exact List.mem_append.mpr (Or.inr (List.mem_cons_of_mem _ h))
                have hids2 : ∀ x ∈ l1 ++ l2, x.id ≠ uid := by
                  intro x hx
                  have hne : user.id ≠ x.id :=
                    pairwise_middle (R := fun u v : UserRec => u.id ≠ v.id)
                      (fun {a b} h => h.symm) hIds x hx
                  rw [huserid] at hne
                  exact fun hxx => hne (hxx.symm)
                have hmid : ∀ x ∈ l1 ++ l2, usersDistinct user x :=
                  pairwise_middle usersDistinct_symm hU
                refine pairwise_replace usersDistinct_symm hU ?_
                intro x hx
                have hxid := hids2 x hx
                have hdx := hmid x hx
                have hbne : (x.id != uid) = true := by simp [hxid]
                constructor
                · show ciEq (upd.email.getD user.email) x.email = false
                  cases hem : upd.email with
                  | none => simpa using hdx.1
                  | some e =>
                      have h := hanyE x (hsub x hx)
                      rw [hem] at h
                      simp only [hbne, Bool.and_true, Bool.not_eq_true] at h
                      rw [Option.getD_some, ciEq_symm]
                      exact h
                · show ciEq (upd.username.getD user.username) x.username = false
                  cases hun : upd.username with
                  | none => simpa using hdx.2
                  | some un =>
                      have h := hanyU x (hsub x hx)
                      rw [hun] at h
                      simp only [hbne, Bool.and_true, Bool.not_eq_true] at h
                      rw [Option.getD_some, ciEq_symm]
                      exact h

/-- Witness for C8: a second registration whose email differs from an
existing one only by letter case is refused. -/
theorem C8_witness :
    register_user ⟨[⟨0, "A", "B", "Alice@Example.com", "alice", hash_password "Secure1!",
        true, false, none, 0, 0⟩], 1, 1⟩
      ⟨"C", "D", "alice@example.COM", "bob", "Secure1!", "Secure1!"⟩ =
      (⟨[⟨0, "A", "B", "Alice@Example.com", "alice", hash_password "Secure1!",
        true, false, none, 0, 0⟩], 1, 1⟩,
        Except.error ⟨400, "Username or email already exists"⟩) :=
  C8_uniqueness_invariant.1
    ⟨[⟨0, "A", "B", "Alice@Example.com", "alice", hash_password "Secure1!",
        true, false, none, 0, 0⟩], 1, 1⟩
    ⟨"C", "D", "alice@example.COM", "bob", "Secure1!", "Secure1!"⟩
    (by decide) rfl
    ⟨⟨0, "A", "B", "Alice@Example.com", "alice", hash_password "Secure1!",
        true, false, none, 0, 0⟩, by simp, Or.inl (by decide)⟩

end Spec2Proof
